import Mathlib

/-!
Shallow embedding of kevinboone/pi-servo (src/pwm.c, src/main.c).

Modelling conventions:
* C `int` fields are modelled as `ℤ` (no overflow is reached by the program's
  tiny values; the cast `(int)(double)` is truncation toward zero).
* C `double` values are modelled as exact rationals `ℚ`; the C expression
  `(int) (self->cycle_usec * duty)` is modelled as truncation toward zero of
  the exact rational product.
* OS interaction (sysfs file writes, `open`, `pthread_create`, `strerror`) is
  modelled by an environment record `GpioEnv` that fixes the outcome of each
  external call; the functions thread the `PWM` state explicitly.
-/

namespace PiServo

/-- Truncation toward zero of a rational, the semantics of C's `(int)` cast
applied to a `double`. -/
def truncQ (q : ℚ) : ℤ := if 0 ≤ q then ⌊q⌋ else ⌈q⌉

/-- The `struct _PWM` of pwm.c: pin number, thread reference, stop flag,
saved file handle for the `value` pseudo-file, cycle length and the
on/off intervals, all in microseconds. -/
structure PWM where
  pin : ℤ
  pthread : Nat
  stop : Bool
  f_value : ℤ
  cycle_usec : ℤ
  on_usec : ℤ
  off_usec : ℤ
deriving DecidableEq

/-- `pwm_create`: zero-initializes the structure (`memset 0`), then sets
`pin` and `f_value = -1`. -/
def pwm_create (pin : ℤ) : PWM :=
  { pin := pin, pthread := 0, stop := false, f_value := -1,
    cycle_usec := 0, on_usec := 0, off_usec := 0 }

/-- `pwm_set_duty`: `on_usec = (int)(cycle_usec * duty)` (C truncation toward
zero of the product, doubles modelled as exact rationals);
`off_usec = cycle_usec - on_usec`. -/
def pwm_set_duty (self : PWM) (duty : ℚ) : PWM :=
  let on_usec : ℤ := truncQ ((self.cycle_usec : ℚ) * duty)
  let off_usec : ℤ := self.cycle_usec - on_usec
  { self with on_usec := on_usec, off_usec := off_usec }

/-- Environment fixing the outcome of each OS call made during pin setup,
teardown and thread creation. -/
structure GpioEnv where
  export_ok : Bool
  direction_ok : Bool
  open_fd : ℤ
  strerror : String
  new_tid : Nat
  unexport_ok : Bool

/-- `pwm_write_to_file`: returns 0 when `fopen` succeeds (the write itself is
not checked by the source), -1 when `fopen` fails. -/
def pwm_write_to_file (fopen_ok : Bool) : ℤ :=
  if fopen_ok then 0 else -1

/-- `pwm_setup_pin`: writes the pin number to the sysfs `export` file, and if
that succeeds writes `out` to `direction` (result discarded by the source),
opens `value` storing the fd in `f_value`, then executes
`if (self->f_value >= 0) ret = 0;` — note `ret` is left unchanged (it is
already 0) when the open fails, exactly as in the source. -/
def pwm_setup_pin (env : GpioEnv) (self : PWM) : PWM × ℤ :=
  let ret := pwm_write_to_file env.export_ok
  if ret = 0 then
    let _ := pwm_write_to_file env.direction_ok
    let self2 := { self with f_value := env.open_fd }
    let ret2 := if 0 ≤ self2.f_value then (0 : ℤ) else ret
    (self2, ret2)
  else
    (self, ret)

/-- `pwm_unsetup_pin`: writes the pin number to `unexport`, closes `f_value`
when it is ≥ 0, and sets `f_value = -1`; returns the `unexport` write result. -/
def pwm_unsetup_pin (env : GpioEnv) (self : PWM) : PWM × ℤ :=
  let ret := pwm_write_to_file env.unexport_ok
  let self2 := { self with f_value := -1 }
  (self2, ret)

/-- The error message built by `asprintf (error, "Can't set up pin: %s",
strerror (errno))`; the apostrophe is `Char.ofNat 39`. -/
def start_error_message (os_err : String) : String :=
  "Can" ++ String.singleton (Char.ofNat 39) ++ "t set up pin: " ++ os_err

/-- Result of `pwm_start`: the updated instance, the `BOOL` return value, the
string written through the `error` out-parameter (modelling a caller that
passed a non-null pointer), and whether `pthread_create` launched the loop. -/
structure StartResult where
  self : PWM
  ret : Bool
  error : Option String
  thread_launched : Bool

/-- `pwm_start`: calls `pwm_setup_pin`; on 0, clears `stop`, records
`cycle_usec`, sets `on_usec = 0`, `off_usec = cycle_usec`, launches the
detached loop thread and returns TRUE; otherwise builds the error message and
returns FALSE. -/
def pwm_start (env : GpioEnv) (self : PWM) (cycle_usec : ℤ) : StartResult :=
  let p := pwm_setup_pin env self
  if p.2 = 0 then
    let s2 := { p.1 with stop := false, cycle_usec := cycle_usec,
                         on_usec := 0, off_usec := cycle_usec,
                         pthread := env.new_tid }
    { self := s2, ret := true, error := none, thread_launched := true }
  else
    { self := p.1, ret := false,
      error := some (start_error_message env.strerror),
      thread_launched := false }

/-- `pwm_stop`: sets the `stop` flag, then calls `pwm_unsetup_pin`. -/
def pwm_stop (env : GpioEnv) (self : PWM) : PWM :=
  (pwm_unsetup_pin env { self with stop := true }).1

/-- `pwm_destroy`: calls `pwm_stop` then frees the instance (the deallocation
itself has no observable effect on the modelled state). -/
def pwm_destroy (env : GpioEnv) (self : PWM) : PWM :=
  pwm_stop env self

/-! ### The timing loop, `pwm_loop`

Two views of `pwm_loop` are embedded.  `pwm_iter` gives the event trace of a
single iteration of the `while (!self->stop)` body, with the value the
mid-iteration `if (!self->stop)` check reads passed in as `stop2` (it may have
been changed concurrently by `pwm_stop`).  The second view is a small-step
machine (`loopStep`/`stopStep`/`interleave`) that interleaves the loop with a
concurrent `pwm_stop` call at the granularity of the C statements, used for
the stop/release interleaving analysis. -/

/-- Observable actions of one loop iteration: `pwm_set_pin (self, 1)`,
`pwm_set_pin (self, 0)`, and `usleep`. -/
inductive Event where
  | writeHigh : Event
  | writeLow : Event
  | sleep : ℤ → Event
deriving DecidableEq

/-- Event trace of one iteration of the `pwm_loop` body, entered with the
head `while (!self->stop)` check having read false; `stop2` is the value read
by the mid-iteration `if (!self->stop)` check. -/
def pwm_iter (self : PWM) (stop2 : Bool) : List Event :=
  (if self.on_usec ≠ 0 then [Event.writeHigh] else []) ++
  [Event.sleep self.on_usec] ++
  (if stop2 then []
   else (if self.off_usec ≠ 0 then [Event.writeLow] else []) ++
        [Event.sleep self.off_usec])

/-- Program counter of the loop thread, one location per C statement of
`pwm_loop`: the `while (!self->stop)` check, the conditional HIGH write, the
on-sleep, the `if (!self->stop)` check, the conditional LOW write, the
off-sleep, and loop exit. -/
inductive LoopPC where
  | head : LoopPC
  | highWrite : LoopPC
  | highSleep : LoopPC
  | midCheck : LoopPC
  | lowWrite : LoopPC
  | lowSleep : LoopPC
  | done : LoopPC
deriving DecidableEq

/-- Joint state of the loop thread and a thread running `pwm_stop`:
the shared `PWM` record, each thread's program counter (`spc`: 0 = before
`self->stop = TRUE`, 1 = before `pwm_unsetup_pin`, 2 = returned), a count of
`pwm_set_pin` calls made by the loop, and a count of those calls made after
the handle was released (`f_value < 0` at the time of the write). -/
structure IState where
  pwm : PWM
  lpc : LoopPC
  spc : Nat
  writes : Nat
  badWrites : Nat
deriving DecidableEq

/-- A `pwm_set_pin` call by the loop thread: `write (self->f_value, ...)`.
Counted as a bad write when the handle has already been released. -/
def pinWrite (s : IState) : IState :=
  { s with writes := s.writes + 1,
           badWrites := s.badWrites + (if s.pwm.f_value < 0 then 1 else 0) }

/-- One statement of `pwm_loop` executed by the loop thread. -/
def loopStep (s : IState) : IState :=
  match s.lpc with
  | LoopPC.head =>
      if s.pwm.stop then { s with lpc := LoopPC.done }
      else { s with lpc := LoopPC.highWrite }
  | LoopPC.highWrite =>
      let s2 := if s.pwm.on_usec ≠ 0 then pinWrite s else s
      { s2 with lpc := LoopPC.highSleep }
  | LoopPC.highSleep => { s with lpc := LoopPC.midCheck }
  | LoopPC.midCheck =>
      if s.pwm.stop then { s with lpc := LoopPC.head }
      else { s with lpc := LoopPC.lowWrite }
  | LoopPC.lowWrite =>
      let s2 := if s.pwm.off_usec ≠ 0 then pinWrite s else s
      { s2 with lpc := LoopPC.lowSleep }
  | LoopPC.lowSleep => { s with lpc := LoopPC.head }
  | LoopPC.done => s

/-- One statement of `pwm_stop` executed by the stopping thread:
first `self->stop = TRUE`, then `pwm_unsetup_pin (self)` (which leaves
`f_value = -1`); afterwards it is a no-op. -/
def stopStep (s : IState) : IState :=
  match s.spc with
  | 0 => { s with pwm := { s.pwm with stop := true }, spc := 1 }
  | 1 => { s with pwm := { s.pwm with f_value := -1 }, spc := 2 }
  | _ => s

/-- Run an interleaving: `true` schedules one step of the loop thread,
`false` one step of the stopping thread. -/
def interleave (sched : List Bool) (s : IState) : IState :=
  sched.foldl (fun t b => if b then loopStep t else stopStep t) s

/-! ### The console loop of main.c -/

/-- The `while (val > 0.0)` loop of `main`: consumes entered values until the
first nonpositive one; each positive value is passed to `pwm_set_duty`.
Returns the final instance state, the list of values forwarded to
`pwm_set_duty` in order, and whether the loop terminated (an empty input list
models `fscanf` blocking forever: the loop is never exited). -/
def console_loop (s : PWM) (inputs : List ℚ) : PWM × List ℚ × Bool :=
  match inputs with
  | [] => (s, [], false)
  | v :: rest =>
      if 0 < v then
        let s2 := pwm_set_duty s v
        let r := console_loop s2 rest
        (r.1, v :: r.2.1, r.2.2)
      else
        (s, [], true)

/-- Observable outcome of `main`: final instance state, values forwarded to
`pwm_set_duty` by the console loop, and whether `pwm_stop` / `pwm_destroy`
were invoked. -/
structure MainResult where
  pwm : PWM
  forwarded : List ℚ
  stop_called : Bool
  destroy_called : Bool

/-- `main`: creates the instance on pin 17, starts it at 20000 usec; on
success sets duty 0.0, runs the console loop, and after the loop exits calls
`pwm_stop`.  `pwm_destroy` is not called anywhere in main.c. -/
def run_main (env : GpioEnv) (inputs : List ℚ) : MainResult :=
  let pwm0 := pwm_create 17
  let r := pwm_start env pwm0 20000
  if r.ret then
    let s1 := pwm_set_duty r.self 0
    let c := console_loop s1 inputs
    if c.2.2 then
      { pwm := pwm_stop env c.1, forwarded := c.2.1,
        stop_called := true, destroy_called := false }
    else
      { pwm := c.1, forwarded := c.2.1,
        stop_called := false, destroy_called := false }
  else
    { pwm := r.self, forwarded := [],
      stop_called := false, destroy_called := false }

end PiServo


namespace PiServo

/-! ### Helper lemmas -/

lemma truncQ_nonneg (q : ℚ) (h : 0 ≤ q) : truncQ q = ⌊q⌋ :=
  if_pos h

lemma truncQ_neg (q : ℚ) (h : q < 0) : truncQ q = -⌊-q⌋ := by
  rw [truncQ, if_neg (not_le.mpr h)]
  rw [show q = -(-q) by ring, Int.ceil_neg, neg_neg]

lemma set_duty_on (s : PWM) (d : ℚ) :
    (pwm_set_duty s d).on_usec = truncQ ((s.cycle_usec : ℚ) * d) := rfl

lemma set_duty_off (s : PWM) (d : ℚ) :
    (pwm_set_duty s d).off_usec = s.cycle_usec - truncQ ((s.cycle_usec : ℚ) * d) := rfl

/-! ### Claims about the duty-cycle computation -/

/-- C1: for every instance, any cycle length and every fraction (in range or
not), after `pwm_set_duty` the stored pair satisfies
`on_usec = round_toward_zero (cycle_usec * duty)` and
`off_usec = cycle_usec - on_usec`, so `on_usec + off_usec = cycle_usec`
holds exactly. -/
theorem set_duty_rounding_policy (s : PWM) (d : ℚ) :
    (pwm_set_duty s d).on_usec = truncQ ((s.cycle_usec : ℚ) * d) ∧
    (pwm_set_duty s d).off_usec = s.cycle_usec - (pwm_set_duty s d).on_usec ∧
    (pwm_set_duty s d).on_usec + (pwm_set_duty s d).off_usec = s.cycle_usec := by
  refine ⟨rfl, rfl, ?_⟩
  rw [set_duty_on, set_duty_off]
  ring

/-- C10: `pwm_set_duty` mutates only `on_usec` and `off_usec`; the pin
number, cycle length, stop flag, value-file handle and thread reference are
unchanged. -/
theorem set_duty_frame (s : PWM) (d : ℚ) :
    (pwm_set_duty s d).pin = s.pin ∧
    (pwm_set_duty s d).cycle_usec = s.cycle_usec ∧
    (pwm_set_duty s d).stop = s.stop ∧
    (pwm_set_duty s d).f_value = s.f_value ∧
    (pwm_set_duty s d).pthread = s.pthread :=
  ⟨rfl, rfl, rfl, rfl, rfl⟩

/-- C9: `pwm_set_duty 0` yields `on_usec = 0`, `off_usec = cycle_usec`, and
`pwm_set_duty 1` yields `on_usec = cycle_usec`, `off_usec = 0`, for any
nonnegative cycle length. -/
theorem set_duty_endpoints (s : PWM) (h : 0 ≤ s.cycle_usec) :
    (pwm_set_duty s 0).on_usec = 0 ∧
    (pwm_set_duty s 0).off_usec = s.cycle_usec ∧
    (pwm_set_duty s 1).on_usec = s.cycle_usec ∧
    (pwm_set_duty s 1).off_usec = 0 := by
  have h0 : truncQ ((s.cycle_usec : ℚ) * 0) = 0 := by
    rw [mul_zero, truncQ_nonneg _ le_rfl, Int.floor_zero]
  have h1 : truncQ ((s.cycle_usec : ℚ) * 1) = s.cycle_usec := by
    rw [mul_one, truncQ_nonneg _ (by exact_mod_cast h), Int.floor_intCast]
  refine ⟨?_, ?_, ?_, ?_⟩
  · rw [set_duty_on, h0]
  · rw [set_duty_off, h0]; ring
  · rw [set_duty_on, h1]
  · rw [set_duty_off, h1]; ring

/-- Witness for C9 at `cycle_usec = 20000`. -/
theorem set_duty_endpoints_witness :
    (pwm_set_duty { pwm_create 17 with cycle_usec := 20000 } 0).on_usec = 0 ∧
    (pwm_set_duty { pwm_create 17 with cycle_usec := 20000 } 0).off_usec = 20000 ∧
    (pwm_set_duty { pwm_create 17 with cycle_usec := 20000 } 1).on_usec = 20000 ∧
    (pwm_set_duty { pwm_create 17 with cycle_usec := 20000 } 1).off_usec = 0 :=
  set_duty_endpoints { pwm_create 17 with cycle_usec := 20000 } (by decide)

end PiServo

namespace PiServo

/-- C3 counterexample: the claim asserts that any fraction below 0.0 yields a
negative `off_usec` and any fraction above 1.0 an `on_usec` strictly above
`cycle_usec`.  At `cycle_usec = 5`, `duty = -1/2` the code computes
`on_usec = (int)(-2.5) = -2` hence `off_usec = 7`, which is not negative. -/
theorem set_duty_no_clamp_counterexample :
    ¬ (∀ (s : PWM) (f : ℚ), 0 < s.cycle_usec →
        (f < 0 → (pwm_set_duty s f).off_usec < 0) ∧
        (1 < f → s.cycle_usec < (pwm_set_duty s f).on_usec)) := by
  intro h
  have h2 := (h { pwm_create 17 with cycle_usec := 5 } (-1/2) (by norm_num)).1
    (by norm_num)
  have e : (pwm_set_duty { pwm_create 17 with cycle_usec := 5 } (-1/2)).off_usec = 7 := by
    rw [set_duty_off]
    have hcy : ({ pwm_create 17 with cycle_usec := 5 } : PWM).cycle_usec = 5 := rfl
    rw [hcy]
    rw [truncQ_neg _ (by norm_num)]
    norm_num
  rw [e] at h2
  exact absurd h2 (by norm_num)

/-- C3 amended: with a positive cycle length, a fraction below 0.0 yields a
nonpositive `on_usec` and an `off_usec` at least `cycle_usec`; a fraction
above 1.0 yields an `on_usec` at least `cycle_usec` and a nonpositive
`off_usec` (no clamping is performed; the claim had the outcomes reversed and
the bounds need not be strict because of truncation toward zero). -/
theorem set_duty_no_clamp (s : PWM) (f : ℚ) (hc : 0 < s.cycle_usec) :
    (f < 0 → (pwm_set_duty s f).on_usec ≤ 0 ∧
             s.cycle_usec ≤ (pwm_set_duty s f).off_usec) ∧
    (1 < f → s.cycle_usec ≤ (pwm_set_duty s f).on_usec ∧
             (pwm_set_duty s f).off_usec ≤ 0) := by
  constructor
  · intro hf
    have hq : (s.cycle_usec : ℚ) * f < 0 :=
      mul_neg_of_pos_of_neg (by exact_mod_cast hc) hf
    have hon : (pwm_set_duty s f).on_usec ≤ 0 := by
      rw [set_duty_on, truncQ, if_neg (not_le.mpr hq)]
      exact Int.ceil_le.mpr (by exact_mod_cast hq.le)
    refine ⟨hon, ?_⟩
    rw [set_duty_off]
    rw [set_duty_on] at hon
    omega
  · intro hf
    have hcq : (0 : ℚ) ≤ (s.cycle_usec : ℚ) := by positivity
    have hq : (s.cycle_usec : ℚ) ≤ (s.cycle_usec : ℚ) * f :=
      le_mul_of_one_le_right hcq hf.le
    have h0 : (0 : ℚ) ≤ (s.cycle_usec : ℚ) * f := le_trans hcq hq
    have hon : s.cycle_usec ≤ (pwm_set_duty s f).on_usec := by
      rw [set_duty_on, truncQ, if_pos h0]
      exact Int.le_floor.mpr hq
    refine ⟨hon, ?_⟩
    rw [set_duty_off]
    rw [set_duty_on] at hon
    omega

/-- Witness for the amended C3 at `cycle_usec = 5`, `duty = 2`. -/
theorem set_duty_no_clamp_witness :
    ((2 : ℚ) < 0 → (pwm_set_duty { pwm_create 17 with cycle_usec := 5 } 2).on_usec ≤ 0 ∧
       (5 : ℤ) ≤ (pwm_set_duty { pwm_create 17 with cycle_usec := 5 } 2).off_usec) ∧
    ((1 : ℚ) < 2 → (5 : ℤ) ≤ (pwm_set_duty { pwm_create 17 with cycle_usec := 5 } 2).on_usec ∧
       (pwm_set_duty { pwm_create 17 with cycle_usec := 5 } 2).off_usec ≤ 0) :=
  set_duty_no_clamp { pwm_create 17 with cycle_usec := 5 } 2 (by decide)

end PiServo

namespace PiServo

/-! ### Environments used by concrete scenarios -/

/-- Environment in which every OS call succeeds (`open` returns fd 3). -/
def envOK : GpioEnv :=
  { export_ok := true, direction_ok := true, open_fd := 3,
    strerror := "", new_tid := 1, unexport_ok := true }

/-- Environment in which the `export` write succeeds but `open` of the
`value` attribute fails, returning -1. -/
def envOpenFail : GpioEnv :=
  { export_ok := true, direction_ok := true, open_fd := -1,
    strerror := "ENOENT", new_tid := 1, unexport_ok := true }

/-- Environment in which the `export` write fails (e.g. insufficient
privilege), so the pin cannot be claimed. -/
def envExportFail : GpioEnv :=
  { export_ok := false, direction_ok := true, open_fd := 3,
    strerror := "EACCES", new_tid := 1, unexport_ok := true }

/-! ### Claims about start / setup failure handling -/

/-- C2 (code bug): when the `export` write succeeds but opening the `value`
attribute fails, `pwm_setup_pin` is claimed to return nonzero and `pwm_start`
to return FALSE with an error; but because the source line
`if (self->f_value >= 0) ret = 0;` leaves `ret` (already 0) unchanged when
the open fails, `pwm_setup_pin` returns 0, and `pwm_start` returns TRUE with
no error, launching the loop with the invalid handle `f_value = -1`. -/
theorem setup_pin_open_failure_returns_success :
    (pwm_setup_pin envOpenFail (pwm_create 17)).2 = 0 ∧
    (pwm_setup_pin envOpenFail (pwm_create 17)).1.f_value = -1 ∧
    (pwm_start envOpenFail (pwm_create 17) 20000).ret = true ∧
    (pwm_start envOpenFail (pwm_create 17) 20000).error = none ∧
    (pwm_start envOpenFail (pwm_create 17) 20000).thread_launched = true ∧
    (pwm_start envOpenFail (pwm_create 17) 20000).self.f_value = -1 :=
  ⟨rfl, rfl, rfl, rfl, rfl, rfl⟩

/-- C4: whenever `pwm_setup_pin` fails (nonzero return), `pwm_start` returns
FALSE, writes the error message carrying the OS error text, launches no
thread, and leaves every field of the instance unchanged. -/
theorem start_claim_failure_idle (env : GpioEnv) (s : PWM) (c : ℤ)
    (h : (pwm_setup_pin env s).2 ≠ 0) :
    (pwm_start env s c).ret = false ∧
    (pwm_start env s c).error = some (start_error_message env.strerror) ∧
    (pwm_start env s c).thread_launched = false ∧
    (pwm_start env s c).self.cycle_usec = s.cycle_usec ∧
    (pwm_start env s c).self.on_usec = s.on_usec ∧
    (pwm_start env s c).self.off_usec = s.off_usec ∧
    (pwm_start env s c).self.stop = s.stop ∧
    (pwm_start env s c).self.f_value = s.f_value := by
  have hexp : env.export_ok = false := by
    by_contra hx
    have hx2 : env.export_ok = true := by
      cases hv : env.export_ok
      · exact absurd hv hx
      · rfl
    apply h
    simp [pwm_setup_pin, pwm_write_to_file, hx2]
  have hsetup : pwm_setup_pin env s = (s, -1) := by
    simp [pwm_setup_pin, pwm_write_to_file, hexp]
  simp [pwm_start, hsetup]

/-- Witness for C4: a failing `export` write on a fresh instance. -/
theorem start_claim_failure_idle_witness :
    (pwm_start envExportFail (pwm_create 17) 20000).ret = false ∧
    (pwm_start envExportFail (pwm_create 17) 20000).error =
      some (start_error_message envExportFail.strerror) ∧
    (pwm_start envExportFail (pwm_create 17) 20000).thread_launched = false ∧
    (pwm_start envExportFail (pwm_create 17) 20000).self.cycle_usec = (pwm_create 17).cycle_usec ∧
    (pwm_start envExportFail (pwm_create 17) 20000).self.on_usec = (pwm_create 17).on_usec ∧
    (pwm_start envExportFail (pwm_create 17) 20000).self.off_usec = (pwm_create 17).off_usec ∧
    (pwm_start envExportFail (pwm_create 17) 20000).self.stop = (pwm_create 17).stop ∧
    (pwm_start envExportFail (pwm_create 17) 20000).self.f_value = (pwm_create 17).f_value :=
  start_claim_failure_idle envExportFail (pwm_create 17) 20000 (by decide)

/-- C5: whenever `pwm_start` succeeds, the instance has the requested cycle
length, `on_usec = 0`, `off_usec = cycle_usec` (fully off), a cleared stop
flag, and the loop thread has been launched bound to this instance. -/
theorem start_success_postcondition (env : GpioEnv) (s : PWM) (c : ℤ)
    (h : (pwm_start env s c).ret = true) :
    (pwm_start env s c).self.cycle_usec = c ∧
    (pwm_start env s c).self.on_usec = 0 ∧
    (pwm_start env s c).self.off_usec = c ∧
    (pwm_start env s c).self.stop = false ∧
    (pwm_start env s c).thread_launched = true := by
  by_cases h0 : (pwm_setup_pin env s).2 = 0
  · simp [pwm_start, h0]
  · simp [pwm_start, h0] at h

/-- Witness for C5: a successful start of a fresh instance. -/
theorem start_success_postcondition_witness :
    (pwm_start envOK (pwm_create 17) 20000).self.cycle_usec = 20000 ∧
    (pwm_start envOK (pwm_create 17) 20000).self.on_usec = 0 ∧
    (pwm_start envOK (pwm_create 17) 20000).self.off_usec = 20000 ∧
    (pwm_start envOK (pwm_create 17) 20000).self.stop = false ∧
    (pwm_start envOK (pwm_create 17) 20000).thread_launched = true :=
  start_success_postcondition envOK (pwm_create 17) 20000 (by decide)

end PiServo

namespace PiServo

/-- C6: an iteration of the loop body entered with the stop signal unset
writes HIGH exactly when `on_usec` is nonzero, sleeps `on_usec`, and then:
if the re-checked stop signal is set, exits without writing LOW or sleeping
the low phase; otherwise writes LOW exactly when `off_usec` is nonzero and
sleeps `off_usec`, in this order. -/
theorem loop_iteration_structure (s : PWM) (stop2 : Bool) :
    ((Event.writeHigh ∈ pwm_iter s stop2) ↔ s.on_usec ≠ 0) ∧
    (stop2 = true → pwm_iter s stop2 =
      (if s.on_usec ≠ 0 then [Event.writeHigh] else []) ++ [Event.sleep s.on_usec]) ∧
    (stop2 = true → Event.writeLow ∉ pwm_iter s stop2) ∧
    (stop2 = false →
      ((Event.writeLow ∈ pwm_iter s stop2) ↔ s.off_usec ≠ 0) ∧
      pwm_iter s stop2 =
        (if s.on_usec ≠ 0 then [Event.writeHigh] else []) ++ [Event.sleep s.on_usec] ++
        ((if s.off_usec ≠ 0 then [Event.writeLow] else []) ++ [Event.sleep s.off_usec])) := by
  cases stop2 <;> by_cases h1 : s.on_usec = 0 <;> by_cases h2 : s.off_usec = 0 <;>
    simp [pwm_iter, h1, h2]

/-- Initial joint state for the interleaving analysis: the instance has just
been started (`pwm_start` on a fresh instance in the all-succeeding
environment), the loop thread is at the head check, and `pwm_stop` has not
begun. -/
def startedInit : IState :=
  { pwm := (pwm_start envOK (pwm_create 17) 20000).self,
    lpc := LoopPC.head, spc := 0, writes := 0, badWrites := 0 }

/-- C7 counterexample: it is not the case that every interleaving of the
started loop with `pwm_stop` is free of pin writes after the handle release:
if the loop passes its mid-iteration stop check just before `pwm_stop` runs
to completion, the following `pwm_set_pin` call writes to the released
handle. -/
theorem loop_write_after_release_counterexample :
    ¬ (∀ sched : List Bool, (interleave sched startedInit).badWrites = 0) := by
  intro h
  exact absurd (h [true, true, true, true, false, false, true]) (by decide)

/-- C7 amended: the reference code does allow the loop to call `pwm_set_pin`
after `pwm_stop` has released the handle (the stop/release hazard), but once
the loop thread has itself observed the stop signal at a checkpoint — it is
at the head check with the stop flag set, or has exited — it performs no
further pin writes under any interleaving. -/
theorem loop_no_write_after_observing_stop (sched : List Bool) (s : IState)
    (h1 : s.pwm.stop = true) (h2 : s.lpc = LoopPC.head ∨ s.lpc = LoopPC.done) :
    (interleave sched s).writes = s.writes ∧
    (interleave sched s).badWrites = s.badWrites := by
  induction sched generalizing s with
  | nil => exact ⟨rfl, rfl⟩
  | cons b rest ih =>
    have hstep : interleave (b :: rest) s =
        interleave rest (if b then loopStep s else stopStep s) := rfl
    rw [hstep]
    cases b
    · -- a step of the stopping thread: pc, counters unchanged; stop stays set
      have hpwm : (stopStep s).pwm.stop = true ∧ (stopStep s).lpc = s.lpc ∧
          (stopStep s).writes = s.writes ∧ (stopStep s).badWrites = s.badWrites := by
        rcases s with ⟨p, l, c, w, bw⟩
        match c with
        | 0 => exact ⟨rfl, rfl, rfl, rfl⟩
        | 1 => exact ⟨h1, rfl, rfl, rfl⟩
        | Nat.succ (Nat.succ n) => exact ⟨h1, rfl, rfl, rfl⟩
      have := ih (stopStep s) hpwm.1 (by rw [hpwm.2.1]; exact h2)
      rw [if_neg (by simp)] at *
      omega
    · -- a step of the loop thread: from head it exits, from done it idles
      rcases h2 with hl | hl
      · have hls : loopStep s = { s with lpc := LoopPC.done } := by
          rcases s with ⟨p, l, c, w, bw⟩
          simp only at hl
          subst hl
          simp [loopStep, show p.stop = true from h1]
        have := ih (loopStep s) (by rw [hls]; exact h1) (by rw [hls]; exact Or.inr rfl)
        rw [if_pos rfl] at *
        rw [hls] at this ⊢
        exact this
      · have hls : loopStep s = s := by
          rcases s with ⟨p, l, c, w, bw⟩
          simp only at hl
          subst hl
          simp [loopStep]
        have := ih (loopStep s) (by rw [hls]; exact h1) (by rw [hls]; exact Or.inr hl)
        rw [if_pos rfl] at *
        rw [hls] at this ⊢
        exact this

/-- Witness for the amended C7: from the started state with the stop flag
already observed set at the head check, a two-step schedule adds no writes. -/
theorem loop_no_write_after_observing_stop_witness :
    (interleave [true, false]
      { pwm := { pin := 17, pthread := 1, stop := true, f_value := 3,
                 cycle_usec := 20000, on_usec := 0, off_usec := 20000 },
        lpc := LoopPC.head, spc := 0, writes := 0, badWrites := 0 }).writes = 0 ∧
    (interleave [true, false]
      { pwm := { pin := 17, pthread := 1, stop := true, f_value := 3,
                 cycle_usec := 20000, on_usec := 0, off_usec := 20000 },
        lpc := LoopPC.head, spc := 0, writes := 0, badWrites := 0 }).badWrites = 0 :=
  loop_no_write_after_observing_stop [true, false] _ rfl (Or.inl rfl)

end PiServo

namespace PiServo

lemma takeWhile_cons_eq (p : ℚ → Bool) (v : ℚ) (l : List ℚ) :
    (v :: l).takeWhile p = if p v then v :: l.takeWhile p else [] := by
  cases hp : p v <;> simp [List.takeWhile, hp]

lemma console_loop_spec (inputs : List ℚ) : ∀ s : PWM,
    (console_loop s inputs).2.1 = inputs.takeWhile (fun v => decide (0 < v)) ∧
    ((console_loop s inputs).2.2 = true ↔ ∃ v ∈ inputs, v ≤ 0) := by
  induction inputs with
  | nil =>
    intro s
    refine ⟨rfl, ?_⟩
    simp [console_loop]
  | cons v rest ih =>
    intro s
    by_cases hv : 0 < v
    · refine ⟨?_, ?_⟩
      · show (console_loop s (v :: rest)).2.1 = _
        rw [takeWhile_cons_eq, if_pos (by simp [hv])]
        simp only [console_loop, if_pos hv]
        exact congrArg (v :: ·) (ih _).1
      · show (console_loop s (v :: rest)).2.2 = true ↔ _
        simp only [console_loop, if_pos hv]
        rw [(ih _).2]
        constructor
        · rintro ⟨x, hx, hx0⟩
          exact ⟨x, List.mem_cons_of_mem _ hx, hx0⟩
        · rintro ⟨x, hx, hx0⟩
          rcases List.mem_cons.mp hx with rfl | hxr
          · exact absurd hx0 (not_le.mpr hv)
          · exact ⟨x, hxr, hx0⟩
    · refine ⟨?_, ?_⟩
      · show (console_loop s (v :: rest)).2.1 = _
        rw [takeWhile_cons_eq, if_neg (by simp [hv])]
        simp only [console_loop, if_neg hv]
      · show (console_loop s (v :: rest)).2.2 = true ↔ _
        simp only [console_loop, if_neg hv]
        constructor
        · intro _
          exact ⟨v, List.mem_cons_self v rest, not_lt.mp hv⟩
        · intro _
          trivial

/-- C8 counterexample: entering `-1` (the first value, nonpositive) makes the
console loop exit and `main` call `pwm_stop`, but `pwm_destroy` is never
invoked by main.c, contradicting the claim that the first nonpositive value
triggers both stop and destroy. -/
theorem console_loop_no_destroy_counterexample :
    ((-1 : ℚ) ≤ 0) ∧
    (run_main envOK [(-1 : ℚ)]).stop_called = true ∧
    (run_main envOK [(-1 : ℚ)]).destroy_called = false := by
  refine ⟨by norm_num, ?_, ?_⟩ <;> decide

/-- C8 amended: every entered value strictly greater than 0.0 before the
first nonpositive entry is forwarded to `pwm_set_duty` with that exact value
(and in order); the loop terminates and `pwm_stop` is called exactly when
some entered value is ≤ 0.0; `pwm_destroy` is never invoked. -/
theorem console_loop_forwarding (env : GpioEnv) (inputs : List ℚ)
    (h : (pwm_start env (pwm_create 17) 20000).ret = true) :
    (run_main env inputs).forwarded = inputs.takeWhile (fun v => decide (0 < v)) ∧
    ((run_main env inputs).stop_called = true ↔ ∃ v ∈ inputs, v ≤ 0) ∧
    (run_main env inputs).destroy_called = false := by
  have hs := console_loop_spec inputs
    (pwm_set_duty (pwm_start env (pwm_create 17) 20000).self 0)
  simp only [run_main, h, if_true]
  by_cases hf : (console_loop
      (pwm_set_duty (pwm_start env (pwm_create 17) 20000).self 0) inputs).2.2 = true
  · simp only [hf, if_true]
    refine ⟨hs.1, ?_, by trivial⟩
    rw [← hs.2]
    constructor
    · intro _
      exact hf
    · intro _
      trivial
  · have hf2 : (console_loop
        (pwm_set_duty (pwm_start env (pwm_create 17) 20000).self 0) inputs).2.2 = false := by
      cases hb : (console_loop
          (pwm_set_duty (pwm_start env (pwm_create 17) 20000).self 0) inputs).2.2
      · rfl
      · exact absurd hb hf
    simp only [hf2, if_false]
    refine ⟨hs.1, ?_, by trivial⟩
    rw [← hs.2]
    constructor
    · intro hx
      cases hx
    · intro hx
      exact absurd hx hf

/-- Witness for the amended C8: inputs 1/2 then -1 with a successful start. -/
theorem console_loop_forwarding_witness :
    (run_main envOK [(1/2 : ℚ), -1]).forwarded =
      ([(1/2 : ℚ), -1]).takeWhile (fun v => decide (0 < v)) ∧
    ((run_main envOK [(1/2 : ℚ), -1]).stop_called = true ↔
      ∃ v ∈ [(1/2 : ℚ), -1], v ≤ 0) ∧
    (run_main envOK [(1/2 : ℚ), -1]).destroy_called = false :=
  console_loop_forwarding envOK [(1/2 : ℚ), -1] (by decide)

end PiServo
